import Mathlib

/-!
Verification of the `core` Context primitive (src/core/context.go) of the
rulio repository.

The Go code mutates heap-allocated `Context` structs whose `props` and
`logProps` fields are heap-allocated maps.  We embed this shallowly with an
explicit heap (`World`): contexts and property maps live in ref-indexed
cells, so aliasing, copy-at-fork and isolation are genuine statements about
the model rather than artifacts of value semantics.  Machine state that the
code treats as opaque (Location pointers, collaborator interfaces, the Go
`context.Context`) is modelled by opaque `Nat` references.
-/

namespace Rulio

/-- Modelled from the spec: `LogLevel` is an enumerated log level defined
outside the given source file ("an enumerated log level controlling default
logging granularity"); we model it as a `Nat` with distinguished constants. -/
abbrev LogLevel := Nat

/-- Modelled from the spec: the default verbosity used by the constructor. -/
def DefaultVerbosity : LogLevel := 1

/-- Modelled from the spec: the `ANYWARN` accumulator level used by
`newContext`. -/
def ANYWARN : LogLevel := 2

/-- Modelled from the spec: the `NOTHING` level (minimum level, used by the
benchmark constructor). -/
def NOTHING : LogLevel := 0

/-- Arbitrary `interface{}` values stored in the property maps. -/
inductive Val where
  | vstr (s : String)
  | vnat (n : Nat)
  | vbool (b : Bool)
  deriving Repr, DecidableEq

/-- The dynamic content of the `location atomic.Value` slot: either the
never-stored empty state, a stored `*Location` (possibly the nil pointer),
or a stored value of some other dynamic type (the `.(*Location)` type
assertion in `GetLoc` fails on the latter two shapes apart from `dloc`). -/
inductive Dyn where
  | dnil
  | dloc (r : Option Nat)
  | dother (n : Nat)
  deriving Repr, DecidableEq

/-- Contents of a Go `map[string]interface{}`: an association list with at
most one binding per key (maintained by `mapInsert`). -/
abbrev PropMap := List (String × Val)

/-- Lookup in a property map (`m[k]`); `none` models the nil interface
returned by a Go map for a missing key. -/
def mapFind (m : PropMap) (k : String) : Option Val :=
  match m with
  | [] => none
  | (k', v') :: rest => if k' = k then some v' else mapFind rest k

/-- Insertion/overwrite in a property map (`m[k] = v`). -/
def mapInsert (m : PropMap) (k : String) (v : Val) : PropMap :=
  match m with
  | [] => [(k, v)]
  | (k', v') :: rest => if k' = k then (k, v) :: rest else (k', v') :: mapInsert rest k v

/-- The per-context record of `type Context struct` (src/core/context.go,
lines 49-105).  `props` and `logProps` are refs into the map heap, matching
the Go maps being separately heap-allocated objects; collaborator interface
fields (`LogAccumulator`, `LogHook`, `PointHook`, `App`, `Tracer`,
`Logger`) and the embedded `Ctx context.Context` are opaque references. -/
structure CtxData where
  id : String
  verbosity : LogLevel
  locSlot : Dyn
  readKey : String
  writeKey : String
  logAcc : Option Nat
  logAccLevel : LogLevel
  logHook : Option Nat
  pointHook : Option Nat
  app : Option Nat
  tracer : Option Nat
  logger : Option Nat
  goCtx : Nat
  propsRef : Nat
  logPropsRef : Nat
  privilege : String
  deriving Repr, DecidableEq

/-- Lookup of a ref in a heap (first match). -/
def alookup {α : Type} (l : List (Nat × α)) (r : Nat) : Option α :=
  match l with
  | [] => none
  | (r', v') :: rest => if r' = r then some v' else alookup rest r

/-- Store a value at a ref in a heap: replaces the existing cell or
allocates a new one. -/
def aset {α : Type} (l : List (Nat × α)) (r : Nat) (v : α) : List (Nat × α) :=
  match l with
  | [] => [(r, v)]
  | (r', v') :: rest => if r' = r then (r, v) :: rest else (r', v') :: aset rest r v

/-- The heap: all live contexts and all live property maps, plus the
allocation counter for fresh refs and the counter driving the external
UUID generator. -/
structure World where
  uuidCounter : Nat
  nextRef : Nat
  ctxs : List (Nat × CtxData)
  maps : List (Nat × PropMap)
  deriving Repr, DecidableEq

/-- The empty heap, before any context has been constructed. -/
def World.empty : World := ⟨0, 0, [], []⟩

/-- Modelled from the spec: `UUID()` is the external unique-id generator
("id: string, globally unique, assigned exactly once at construction");
call number `n` returns a non-empty string distinct from every other
call's result. -/
def UUID (n : Nat) : String := ⟨List.replicate (n + 1) 'u'⟩

theorem UUID_ne_empty (n : Nat) : UUID n ≠ "" := by
  intro h
  have h2 : (UUID n).data = ("" : String).data := by rw [h]
  simp [UUID] at h2

theorem UUID_inj {m n : Nat} (h : UUID m = UUID n) : m = n := by
  have h2 : (UUID m).data = (UUID n).data := by rw [h]
  simpa [UUID] using h2

theorem alookup_aset_self {α : Type} (l : List (Nat × α)) (r : Nat) (v : α) :
    alookup (aset l r v) r = some v := by
  induction l with
  | nil => simp [aset, alookup]
  | cons hd tl ih =>
    by_cases h : hd.1 = r
    · simp [aset, alookup, h]
    · simp [aset, alookup, h, ih]

theorem alookup_aset_ne {α : Type} (l : List (Nat × α)) (r r' : Nat) (v : α)
    (h : r ≠ r') : alookup (aset l r v) r' = alookup l r' := by
  induction l with
  | nil => simp [aset, alookup, h]
  | cons hd tl ih =>
    by_cases h2 : hd.1 = r
    · simp [aset, alookup, h2, h]
    · by_cases h3 : hd.1 = r'
      · simp [aset, alookup, h2, h3, Ne.symm h]
      · simp [aset, alookup, h2, h3, ih]

theorem mapFind_mapInsert_self (m : PropMap) (k : String) (v : Val) :
    mapFind (mapInsert m k v) k = some v := by
  induction m with
  | nil => simp [mapInsert, mapFind]
  | cons hd tl ih =>
    by_cases h : hd.1 = k
    · simp [mapInsert, mapFind, h]
    · simp [mapInsert, mapFind, h, ih]

theorem mapFind_mapInsert_ne (m : PropMap) (k k' : String) (v : Val)
    (h : k ≠ k') : mapFind (mapInsert m k v) k' = mapFind m k' := by
  induction m with
  | nil => simp [mapInsert, mapFind, h]
  | cons hd tl ih =>
    by_cases h2 : hd.1 = k
    · simp [mapInsert, mapFind, h2, h]
    · by_cases h3 : hd.1 = k'
      · simp [mapInsert, mapFind, h2, h3, Ne.symm h]
      · simp [mapInsert, mapFind, h2, h3, ih]

/-- Dereference a context pointer in the heap. -/
def ctxOf (w : World) (c : Nat) : Option CtxData := alookup w.ctxs c

/-- Dereference a map pointer in the heap. -/
def mapOf (w : World) (m : Nat) : Option PropMap := alookup w.maps m

/-- Update the context cell at ref `c` in place (no-op on a dangling ref;
every Go call site holds a live pointer). -/
def updCtx (w : World) (c : Nat) (f : CtxData → CtxData) : World :=
  match ctxOf w c with
  | some d => { w with ctxs := aset w.ctxs c (f d) }
  | none => w

/-- Update the map cell at ref `m` in place (no-op on a dangling ref). -/
def updMap (w : World) (m : Nat) (f : PropMap → PropMap) : World :=
  match mapOf w m with
  | some pm => { w with maps := aset w.maps m (f pm) }
  | none => w

/-- Embeds `func (c *Context) SetLoc(loc *Location) *Location` (lines
107-110): stores `loc` in the atomic slot and returns `loc`. -/
def SetLoc (w : World) (c : Nat) (loc : Option Nat) : World × Option Nat :=
  (updCtx w c (fun d => { d with locSlot := Dyn.dloc loc }), loc)

/-- The type assertion `c.location.Load().(*Location)` applied to a slot
value: yields the stored `*Location` when the slot holds one, and nil
(`none`) on the empty slot or a value of another type. -/
def getLocData (d : CtxData) : Option Nat :=
  match d.locSlot with
  | Dyn.dloc r => r
  | _ => none

/-- Embeds `func (c *Context) GetLoc() *Location` (lines 112-118). -/
def GetLoc (w : World) (c : Nat) : Option Nat :=
  match ctxOf w c with
  | some d => getLocData d
  | none => none

/-- Embeds `func (c *Context) Prop(prop string) interface\x7b\x7d` (lines
124-129): read-locked lookup in the `props` map. (`Prop` is a reserved
word in Lean, hence the name `PropOf`.) -/
def PropOf (w : World) (c : Nat) (prop : String) : Option Val :=
  match ctxOf w c with
  | some d =>
    match mapOf w d.propsRef with
    | some pm => mapFind pm prop
    | none => none
  | none => none

/-- Embeds `func (c *Context) AddProp(prop string, val interface\x7b\x7d)`
(lines 131-135): write-locked insertion into the `props` map. -/
def AddProp (w : World) (c : Nat) (prop : String) (val : Val) : World :=
  match ctxOf w c with
  | some d => updMap w d.propsRef (fun pm => mapInsert pm prop val)
  | none => w

/-- Embeds `func (c *Context) Id() string` (lines 147-151). -/
def IdOf (w : World) (c : Nat) : String :=
  match ctxOf w c with
  | some d => d.id
  | none => ""

/-- Embeds `func (c *Context) grantPrivilege(region string)` (lines
153-157). -/
def grantPrivilege (w : World) (c : Nat) (region : String) : World :=
  updCtx w c (fun d => { d with privilege := region })

/-- Embeds `func (c *Context) revokePrivilege()` (lines 159-163): sets the
privilege slot to the empty string. -/
def revokePrivilege (w : World) (c : Nat) : World :=
  updCtx w c (fun d => { d with privilege := "" })

/-- Embeds `func (c *Context) isPrivileged(region string) bool` (lines
165-170): string comparison of the privilege slot with `region`. -/
def isPrivileged (w : World) (c : Nat) (region : String) : Bool :=
  match ctxOf w c with
  | some d => d.privilege == region
  | none => false

/-- Embeds `newContext(appId string) *Context` together with the `init()`
it calls (lines 183-210): allocates a fresh context with default scalar
fields, a fresh id from the UUID generator, two fresh empty maps, and then
sets `logProps["appId"] = appId`. -/
def newContext (w : World) (appId : String) : World × Nat :=
  let pRef := w.nextRef
  let lpRef := w.nextRef + 1
  let cRef := w.nextRef + 2
  let d : CtxData :=
    { id := UUID w.uuidCounter
      verbosity := DefaultVerbosity
      locSlot := Dyn.dnil
      readKey := ""
      writeKey := ""
      logAcc := none
      logAccLevel := ANYWARN
      logHook := none
      pointHook := none
      app := none
      tracer := none
      logger := none
      goCtx := 0
      propsRef := pRef
      logPropsRef := lpRef
      privilege := "" }
  ({ uuidCounter := w.uuidCounter + 1
     nextRef := w.nextRef + 3
     ctxs := aset w.ctxs cRef d
     maps := aset (aset w.maps pRef []) lpRef [("appId", Val.vstr appId)] },
   cRef)

/-- Embeds `NewContext(prefix string) *Context` (lines 175-177). -/
def NewContext (w : World) (pre : String) : World × Nat := newContext w pre

/-- Embeds `func (ctx *Context) SetLogValue(name string, val interface\x7b\x7d)`
(lines 212-214): unsynchronized insertion into `logProps`. -/
def SetLogValue (w : World) (c : Nat) (name : String) (val : Val) : World :=
  match ctxOf w c with
  | some d => updMap w d.logPropsRef (fun pm => mapInsert pm name val)
  | none => w

/-- Embeds `func (ctx *Context) SubContext() *Context` (lines 216-246):
under the parent's read lock, allocates a child whose scalar fields
(verbosity, keys, accumulator level, privilege) are copied by value, whose
collaborator references are shared, whose location slot receives
`sub.SetLoc(ctx.GetLoc())`, and whose `props`/`logProps` are fresh maps
holding entrywise copies of the parent's current contents; `sub.init()`
assigns the child a fresh UUID.  (On a dangling ref the Go code would
dereference nil; the model returns the heap unchanged.) -/
def SubContext (w : World) (c : Nat) : World × Nat :=
  match ctxOf w c with
  | some d =>
    let pRef := w.nextRef
    let lpRef := w.nextRef + 1
    let cRef := w.nextRef + 2
    let sub : CtxData :=
      { id := UUID w.uuidCounter
        verbosity := d.verbosity
        locSlot := Dyn.dloc (getLocData d)
        readKey := d.readKey
        writeKey := d.writeKey
        logAcc := d.logAcc
        logAccLevel := d.logAccLevel
        logHook := d.logHook
        pointHook := d.pointHook
        app := d.app
        tracer := d.tracer
        logger := d.logger
        goCtx := d.goCtx
        propsRef := pRef
        logPropsRef := lpRef
        privilege := d.privilege }
    ({ uuidCounter := w.uuidCounter + 1
       nextRef := w.nextRef + 3
       ctxs := aset w.ctxs cRef sub
       maps := aset (aset w.maps pRef ((mapOf w d.propsRef).getD []))
         lpRef ((mapOf w d.logPropsRef).getD []) },
     cRef)
  | none => (w, c)

/-- One observable invocation of a tracer collaborator. -/
inductive Event where
  | startSpan (tracer : Nat) (ctx : Nat) (op : String)
  | stopSpan (tracer : Nat) (ctx : Nat)
  deriving Repr, DecidableEq

/-- Embeds `func (ctx *Context) StartSpan(opName string) *Context` (lines
248-254): forks via `SubContext`, then, if the (inherited) `Tracer` field
is non-nil, invokes `Tracer.StartSpan(sub, opName)` — recorded as an
emitted `Event` — and returns the child.  The tracer may mutate the child
in place; since the child is a heap ref, the returned value is that same
ref either way. -/
def StartSpan (w : World) (c : Nat) (op : String) : World × Nat × List Event :=
  let ws := SubContext w c
  (ws.1, ws.2,
    match ctxOf ws.1 ws.2 with
    | some d =>
      match d.tracer with
      | some tr => [Event.startSpan tr ws.2 op]
      | none => []
    | none => [])

/-- Embeds `func (ctx *Context) StopSpan()` (lines 256-260): if the
`Tracer` field is non-nil, invokes `Tracer.StopSpan(ctx)`; the heap is
unchanged, so the result is just the list of tracer invocations. -/
def StopSpan (w : World) (c : Nat) : List Event :=
  match ctxOf w c with
  | some d =>
    match d.tracer with
    | some tr => [Event.stopSpan tr c]
    | none => []
  | none => []

/-- The delegation performed by one `Log` call: either to the process-wide
`DefaultLogger` — which, per the call site `DefaultLogger.Log(level, args)`,
receives the level and the argument slice but not the operation name — or
to the attached logger via `ctx.Logger.Log(level, op, args)`. -/
inductive LogCall where
  | toDefault (level : LogLevel) (args : List Val)
  | toLogger (logger : Nat) (level : LogLevel) (op : String) (args : List Val)
  deriving Repr, DecidableEq

/-- Embeds `func (ctx *Context) Log(level LogLevel, op string, args
...interface\x7b\x7d)` (lines 272-278): `if ctx == nil || ctx.Logger == nil`
delegate to `DefaultLogger.Log(level, args)`, else to
`ctx.Logger.Log(level, op, args)`.  The receiver is an `Option Nat` so the
nil-pointer case is expressible. -/
def Log (w : World) (c : Option Nat) (level : LogLevel) (op : String)
    (args : List Val) : LogCall :=
  match c with
  | none => LogCall.toDefault level args
  | some r =>
    match ctxOf w r with
    | some d =>
      match d.logger with
      | some lg => LogCall.toLogger lg level op args
      | none => LogCall.toDefault level args
    | none => LogCall.toDefault level args

/-- Every context already in the heap carries an id produced by an earlier
call of the external UUID generator (the generator never repeats itself,
so ids of previously constructed contexts come from earlier calls). -/
def IdsBelow (w : World) : Prop :=
  ∀ q ∈ w.ctxs, ∃ j, j < w.uuidCounter ∧ (Prod.snd q).id = UUID j

/-- A concrete heap holding one freshly constructed context (used by the
concrete witnesses below). -/
def w0 : World := (newContext World.empty "app").1

/-- The ref of the context constructed in `w0`. -/
def c0 : Nat := (newContext World.empty "app").2

/-- The context record stored at `c0` in `w0`. -/
def d0 : CtxData :=
  { id := UUID 0
    verbosity := DefaultVerbosity
    locSlot := Dyn.dnil
    readKey := ""
    writeKey := ""
    logAcc := none
    logAccLevel := ANYWARN
    logHook := none
    pointHook := none
    app := none
    tracer := none
    logger := none
    goCtx := 0
    propsRef := 0
    logPropsRef := 1
    privilege := "" }

/-- A context record with a tracer and a logger attached (in Go these
collaborators are assigned directly to the struct fields). -/
def dtr : CtxData := { d0 with tracer := some 7, logger := some 9 }

/-- A concrete heap holding the context `dtr` at ref 2. -/
def wtr : World :=
  { uuidCounter := 1, nextRef := 3, ctxs := [(2, dtr)], maps := [(0, []), (1, [])] }

theorem ctxOf_updCtx_self (w : World) (c : Nat) (d : CtxData)
    (f : CtxData → CtxData) (hc : ctxOf w c = some d) :
    ctxOf (updCtx w c f) c = some (f d) := by
  simp only [updCtx, hc]
  simp only [ctxOf]
  exact alookup_aset_self w.ctxs c (f d)

theorem ctxOf_updCtx_ne (w : World) (c c' : Nat) (f : CtxData → CtxData)
    (h : c ≠ c') : ctxOf (updCtx w c f) c' = ctxOf w c' := by
  unfold updCtx
  cases hc : ctxOf w c with
  | none => rfl
  | some d =>
    simp only [ctxOf]
    exact alookup_aset_ne w.ctxs c c' (f d) h

theorem maps_updCtx (w : World) (c : Nat) (f : CtxData → CtxData) :
    (updCtx w c f).maps = w.maps := by
  unfold updCtx
  cases ctxOf w c <;> rfl

theorem ctxs_updMap (w : World) (m : Nat) (f : PropMap → PropMap) :
    (updMap w m f).ctxs = w.ctxs := by
  unfold updMap
  cases mapOf w m <;> rfl

theorem mapOf_updMap_self (w : World) (m : Nat) (pm : PropMap)
    (f : PropMap → PropMap) (hm : mapOf w m = some pm) :
    mapOf (updMap w m f) m = some (f pm) := by
  simp only [updMap, hm]
  simp only [mapOf]
  exact alookup_aset_self w.maps m (f pm)

theorem mapOf_updMap_ne (w : World) (m m' : Nat) (f : PropMap → PropMap)
    (h : m ≠ m') : mapOf (updMap w m f) m' = mapOf w m' := by
  unfold updMap
  cases hm : mapOf w m with
  | none => rfl
  | some pm =>
    simp only [mapOf]
    exact alookup_aset_ne w.maps m m' (f pm) h

theorem ctxs_AddProp (w : World) (c : Nat) (k : String) (v : Val) :
    (AddProp w c k v).ctxs = w.ctxs := by
  unfold AddProp
  cases ctxOf w c with
  | none => rfl
  | some d => exact ctxs_updMap _ _ _

theorem ctxs_SetLogValue (w : World) (c : Nat) (k : String) (v : Val) :
    (SetLogValue w c k v).ctxs = w.ctxs := by
  unfold SetLogValue
  cases ctxOf w c with
  | none => rfl
  | some d => exact ctxs_updMap _ _ _

theorem IdOf_eq (w : World) (c : Nat) (d : CtxData) (hc : ctxOf w c = some d) :
    IdOf w c = d.id := by
  simp [IdOf, hc]

theorem isPrivileged_eq (w : World) (c : Nat) (d : CtxData)
    (hc : ctxOf w c = some d) (r : String) :
    isPrivileged w c r = (d.privilege == r) := by
  simp [isPrivileged, hc]

theorem ctxOf_grantPrivilege_self (w : World) (c : Nat) (d : CtxData)
    (r : String) (hc : ctxOf w c = some d) :
    ctxOf (grantPrivilege w c r) c = some { d with privilege := r } :=
  ctxOf_updCtx_self w c d _ hc

theorem ctxOf_revokePrivilege_self (w : World) (c : Nat) (d : CtxData)
    (hc : ctxOf w c = some d) :
    ctxOf (revokePrivilege w c) c = some { d with privilege := "" } :=
  ctxOf_updCtx_self w c d _ hc

/-- C3 counterexample: the claim quantifies over all distinct region
strings `r1`, `r2`; at `r1 = ""` and `r2 = "R2"` it demands
`isPrivileged("") = false` after `revokePrivilege()`, but the code sets
the privilege slot back to the empty string, so the comparison yields
`true`. -/
theorem privilegeProtocol_counterexample :
    ("" : String) ≠ "R2" ∧
    isPrivileged (revokePrivilege (grantPrivilege w0 c0 "") c0) c0 "" = true := by
  decide

/-- C3 (amended to non-empty `r1`): after `grantPrivilege r1` the context
is privileged for `r1`; after `revokePrivilege` it is not privileged for
`r1` (given `r1 ≠ ""`); and granting `r2` over `r1` without revoking
leaves the context privileged for `r2` but no longer for `r1`
(single-slot overwrite). -/
theorem privilegeProtocol (w : World) (c : Nat) (d : CtxData) (r1 r2 : String)
    (hc : ctxOf w c = some d) (hne : r1 ≠ r2) (h1 : r1 ≠ "") :
    isPrivileged (grantPrivilege w c r1) c r1 = true ∧
    isPrivileged (revokePrivilege (grantPrivilege w c r1) c) c r1 = false ∧
    isPrivileged (grantPrivilege (grantPrivilege w c r1) c r2) c r1 = false ∧
    isPrivileged (grantPrivilege (grantPrivilege w c r1) c r2) c r2 = true := by
  have g1 := ctxOf_grantPrivilege_self w c d r1 hc
  have g2 := ctxOf_revokePrivilege_self _ c _ g1
  have g3 := ctxOf_grantPrivilege_self _ c _ r2 g1
  refine ⟨?_, ?_, ?_, ?_⟩
  · rw [isPrivileged_eq _ _ _ g1]
    simp
  · rw [isPrivileged_eq _ _ _ g2]
    simp [Ne.symm h1]
  · rw [isPrivileged_eq _ _ _ g3]
    simp [Ne.symm hne]
  · rw [isPrivileged_eq _ _ _ g3]
    simp

/-- C3 witness: the amended protocol at a concrete context with regions
`"R"` and `"R2"`. -/
theorem privilegeProtocol_witness :
    isPrivileged (grantPrivilege w0 c0 "R") c0 "R" = true ∧
    isPrivileged (revokePrivilege (grantPrivilege w0 c0 "R") c0) c0 "R" = false ∧
    isPrivileged (grantPrivilege (grantPrivilege w0 c0 "R") c0 "R2") c0 "R" = false ∧
    isPrivileged (grantPrivilege (grantPrivilege w0 c0 "R") c0 "R2") c0 "R2" = true :=
  privilegeProtocol w0 c0 d0 "R" "R2" (by decide) (by decide) (by decide)

/-- C9: a context on which privilege has never been granted (a freshly
constructed one) and a context immediately after `revokePrivilege` both
satisfy `isPrivileged "" = true`, and `revokePrivilege` produces exactly
the heap that `grantPrivilege ""` produces, so the two are
observationally identical. -/
theorem emptyRegionPrivilegeAmbiguity (w : World) (c : Nat) (d : CtxData)
    (p : String) (hc : ctxOf w c = some d) :
    isPrivileged (newContext w p).1 (newContext w p).2 "" = true ∧
    isPrivileged (revokePrivilege w c) c "" = true ∧
    revokePrivilege w c = grantPrivilege w c "" := by
  refine ⟨?_, ?_, rfl⟩
  · simp [newContext, isPrivileged, ctxOf, alookup_aset_self]
  · rw [isPrivileged_eq _ _ _ (ctxOf_revokePrivilege_self w c d hc)]
    simp

/-- C9 witness: the ambiguity at a concrete context. -/
theorem emptyRegionPrivilegeAmbiguity_witness :
    isPrivileged (newContext w0 "other").1 (newContext w0 "other").2 "" = true ∧
    isPrivileged (revokePrivilege w0 c0) c0 "" = true ∧
    revokePrivilege w0 c0 = grantPrivilege w0 c0 "" :=
  emptyRegionPrivilegeAmbiguity w0 c0 d0 "other" (by decide)

/-- C2 counterexample: the claim says a call on a context without a
logger delegates the operation name to the process-wide default logger,
but the call site is `DefaultLogger.Log(level, args)` — the operation name
is dropped, so two calls differing only in `op` produce the same
delegation. -/
theorem logDelegation_counterexample :
    ("opA" : String) ≠ "opB" ∧
    Log w0 (some c0) 1 "opA" [] = Log w0 (some c0) 1 "opB" [] := by
  decide

/-- C2 (amended): with no logger attached, `Log` delegates the level and
the arguments — but not the operation name — to the process-wide default
logger; with a logger attached it delegates the level, the operation name
and the arguments to that logger. -/
theorem logDelegation (w : World) (c : Nat) (d : CtxData) (lg : Nat)
    (level : LogLevel) (op : String) (args : List Val)
    (hc : ctxOf w c = some d) :
    (d.logger = none → Log w (some c) level op args = LogCall.toDefault level args) ∧
    (d.logger = some lg → Log w (some c) level op args = LogCall.toLogger lg level op args) := by
  constructor
  · intro h
    simp [Log, hc, h]
  · intro h
    simp [Log, hc, h]

/-- C2 witness: the amended delegation at a concrete context carrying a
logger (ref 9). -/
theorem logDelegation_witness :
    Log wtr (some 2) 1 "op" [Val.vnat 3] = LogCall.toLogger 9 1 "op" [Val.vnat 3] :=
  (logDelegation wtr 2 dtr 9 1 "op" [Val.vnat 3] (by decide)).2 (by decide)

/-- C10: a `Log` call on a nil context does not fail — it resolves to the
process-wide default logger, exactly as a call on a live context with no
logger attached does. -/
theorem nilReceiverLogging (w : World) (c : Nat) (d : CtxData)
    (level : LogLevel) (op : String) (args : List Val)
    (hc : ctxOf w c = some d) (hl : d.logger = none) :
    Log w none level op args = LogCall.toDefault level args ∧
    Log w (some c) level op args = Log w none level op args := by
  constructor
  · rfl
  · simp [Log, hc, hl]

/-- C10 witness: nil-receiver logging at a concrete context. -/
theorem nilReceiverLogging_witness :
    Log w0 none 2 "op" [] = LogCall.toDefault 2 [] ∧
    Log w0 (some c0) 2 "op" [] = Log w0 none 2 "op" [] :=
  nilReceiverLogging w0 c0 d0 2 "op" [] (by decide) (by decide)

/-- C4: `SetLoc` returns its argument and a subsequent `GetLoc` reads it
back; `GetLoc` on a freshly constructed context returns nil; and on any
context record whose slot does not hold a `*Location`, the type assertion
fails and the read yields nil rather than an error. -/
theorem locationSlotRoundTrip (w : World) (c : Nat) (d : CtxData) (L : Nat)
    (p : String) (hc : ctxOf w c = some d) :
    (SetLoc w c (some L)).2 = some L ∧
    GetLoc (SetLoc w c (some L)).1 c = some L ∧
    GetLoc (newContext w p).1 (newContext w p).2 = none ∧
    (∀ e : CtxData, (∀ r : Option Nat, e.locSlot ≠ Dyn.dloc r) →
      getLocData e = none) := by
  refine ⟨rfl, ?_, ?_, ?_⟩
  · have h := ctxOf_updCtx_self w c d
      (fun e => { e with locSlot := Dyn.dloc (some L) }) hc
    simp [GetLoc, SetLoc, h, getLocData]
  · simp [newContext, GetLoc, ctxOf, alookup_aset_self, getLocData]
  · intro e he
    cases hs : e.locSlot with
    | dnil => simp [getLocData, hs]
    | dloc r => exact absurd hs (he r)
    | dother n => simp [getLocData, hs]

/-- C4 witness: the round-trip at a concrete context and location ref 5,
and the failed type assertion on a slot holding a non-Location value. -/
theorem locationSlotRoundTrip_witness :
    (SetLoc w0 c0 (some 5)).2 = some 5 ∧
    GetLoc (SetLoc w0 c0 (some 5)).1 c0 = some 5 ∧
    GetLoc (newContext w0 "p").1 (newContext w0 "p").2 = none ∧
    getLocData { d0 with locSlot := Dyn.dother 4 } = none := by
  have h := locationSlotRoundTrip w0 c0 d0 5 "p" (by decide)
  exact ⟨h.1, h.2.1, h.2.2.1, h.2.2.2 _ (by intro r; simp)⟩

/-- C5: `NewContext p` yields a context with a fresh non-empty id
(distinct from the id of every context already in the heap), default
verbosity, an empty props map, no location set, no privilege granted, and
a logProps map holding exactly the entry `"appId" ↦ p`, where the
metadata key `"appId"` contains no dot character. -/
theorem constructorGuarantees (w : World) (p : String) (hw : IdsBelow w) :
    IdOf (NewContext w p).1 (NewContext w p).2 ≠ "" ∧
    (∀ q ∈ w.ctxs, (Prod.snd q).id ≠ IdOf (NewContext w p).1 (NewContext w p).2) ∧
    (∃ d, ctxOf (NewContext w p).1 (NewContext w p).2 = some d ∧
      d.verbosity = DefaultVerbosity ∧ d.privilege = "" ∧
      mapOf (NewContext w p).1 d.logPropsRef = some [("appId", Val.vstr p)] ∧
      mapFind [("appId", Val.vstr p)] "appId" = some (Val.vstr p)) ∧
    (∀ k, PropOf (NewContext w p).1 (NewContext w p).2 k = none) ∧
    GetLoc (NewContext w p).1 (NewContext w p).2 = none ∧
    (∀ ch ∈ "appId".data, ch ≠ '.') := by
  have hc : ctxOf (NewContext w p).1 (NewContext w p).2 = some
      { id := UUID w.uuidCounter
        verbosity := DefaultVerbosity
        locSlot := Dyn.dnil
        readKey := ""
        writeKey := ""
        logAcc := none
        logAccLevel := ANYWARN
        logHook := none
        pointHook := none
        app := none
        tracer := none
        logger := none
        goCtx := 0
        propsRef := w.nextRef
        logPropsRef := w.nextRef + 1
        privilege := "" } := by
    simp [NewContext, newContext, ctxOf, alookup_aset_self]
  have hmp : mapOf (NewContext w p).1 w.nextRef = some [] := by
    simp only [NewContext, newContext, mapOf]
    rw [alookup_aset_ne _ _ _ _ (by omega)]
    exact alookup_aset_self _ _ _
  have hml : mapOf (NewContext w p).1 (w.nextRef + 1)
      = some [("appId", Val.vstr p)] := by
    simp only [NewContext, newContext, mapOf]
    exact alookup_aset_self _ _ _
  refine ⟨?_, ?_, ⟨_, hc, rfl, rfl, hml, rfl⟩, ?_, ?_, ?_⟩
  · rw [IdOf_eq _ _ _ hc]
    exact UUID_ne_empty _
  · intro q hq
    obtain ⟨j, hj, hjid⟩ := hw q hq
    rw [IdOf_eq _ _ _ hc, hjid]
    intro h
    exact absurd (UUID_inj h) (by omega)
  · intro k
    simp [PropOf, hc, hmp, mapFind]
  · simp [GetLoc, hc, getLocData]
  · decide

/-- C5 witness: the constructor guarantees on top of a concrete one-context
heap. -/
theorem constructorGuarantees_witness :
    IdOf (NewContext w0 "p2").1 (NewContext w0 "p2").2 ≠ "" ∧
    (∀ q ∈ w0.ctxs, (Prod.snd q).id ≠ IdOf (NewContext w0 "p2").1 (NewContext w0 "p2").2) ∧
    (∃ d, ctxOf (NewContext w0 "p2").1 (NewContext w0 "p2").2 = some d ∧
      d.verbosity = DefaultVerbosity ∧ d.privilege = "" ∧
      mapOf (NewContext w0 "p2").1 d.logPropsRef = some [("appId", Val.vstr "p2")] ∧
      mapFind [("appId", Val.vstr "p2")] "appId" = some (Val.vstr "p2")) ∧
    (∀ k, PropOf (NewContext w0 "p2").1 (NewContext w0 "p2").2 k = none) ∧
    GetLoc (NewContext w0 "p2").1 (NewContext w0 "p2").2 = none ∧
    (∀ ch ∈ "appId".data, ch ≠ '.') :=
  constructorGuarantees w0 "p2" (by intro q hq; fin_cases hq; exact ⟨0, by decide, rfl⟩)

theorem IdOf_congr_ctxs (w w' : World) (c : Nat) (h : w'.ctxs = w.ctxs) :
    IdOf w' c = IdOf w c := by
  simp [IdOf, ctxOf, h]

theorem IdOf_updCtx (w : World) (c c' : Nat) (f : CtxData → CtxData)
    (hf : ∀ e, (f e).id = e.id) : IdOf (updCtx w c' f) c = IdOf w c := by
  by_cases h : c' = c
  · subst h
    cases hc : ctxOf w c' with
    | none => simp [updCtx, hc]
    | some e =>
      rw [IdOf_eq _ _ _ (ctxOf_updCtx_self w c' e f hc), IdOf_eq _ _ _ hc, hf]
  · simp only [IdOf, ctxOf_updCtx_ne w c' c f h]

theorem ctxOf_SubContext_old (w : World) (c c' : Nat) (hlt : c' < w.nextRef) :
    ctxOf (SubContext w c).1 c' = ctxOf w c' := by
  unfold SubContext
  cases hc : ctxOf w c with
  | none => rfl
  | some d =>
    simp only [ctxOf]
    exact alookup_aset_ne _ _ _ _ (by omega)

theorem SubContext_child_id (w : World) (c : Nat) (d : CtxData)
    (hc : ctxOf w c = some d) :
    IdOf (SubContext w c).1 (SubContext w c).2 = UUID w.uuidCounter := by
  simp only [SubContext, hc]
  simp [IdOf, ctxOf, alookup_aset_self]

/-- C7: assuming the UUID generator never repeats (every stored id comes
from an earlier generator call), a live context's id is non-empty, a
forked child's id differs from its parent's, and none of the mutating
core operations (`AddProp`, `SetLoc`, `SetLogValue`, `grantPrivilege`,
`revokePrivilege`, `SubContext`, `StartSpan`) — performed on any context
`c'` — changes `c`'s id; the remaining operations (`Prop`, `Id`,
`isPrivileged`, `GetLoc`, `Log`, `StopSpan`) do not modify the heap at all
in the model, so they cannot change it either. -/
theorem idFreshAndImmutable (w : World) (c c' : Nat) (d : CtxData)
    (k : String) (v : Val) (L : Option Nat) (r : String) (op : String)
    (hc : ctxOf w c = some d) (hlt : c < w.nextRef)
    (hid : ∃ j, j < w.uuidCounter ∧ d.id = UUID j) :
    IdOf w c ≠ "" ∧
    IdOf (SubContext w c).1 (SubContext w c).2 ≠ IdOf w c ∧
    IdOf (AddProp w c' k v) c = IdOf w c ∧
    IdOf (SetLoc w c' L).1 c = IdOf w c ∧
    IdOf (SetLogValue w c' k v) c = IdOf w c ∧
    IdOf (grantPrivilege w c' r) c = IdOf w c ∧
    IdOf (revokePrivilege w c') c = IdOf w c ∧
    IdOf (SubContext w c').1 c = IdOf w c ∧
    IdOf (StartSpan w c' op).1 c = IdOf w c := by
  obtain ⟨j, hj, hjid⟩ := hid
  have hidw : IdOf w c = UUID j := by rw [IdOf_eq _ _ _ hc, hjid]
  have hsub : IdOf (SubContext w c').1 c = IdOf w c := by
    simp only [IdOf, ctxOf_SubContext_old w c' c hlt]
  refine ⟨?_, ?_, ?_, ?_, ?_, ?_, ?_, hsub, ?_⟩
  · rw [hidw]
    exact UUID_ne_empty j
  · rw [SubContext_child_id w c d hc, hidw]
    intro h
    exact absurd (UUID_inj h) (by omega)
  · exact IdOf_congr_ctxs w _ c (ctxs_AddProp w c' k v)
  · exact IdOf_updCtx w c c' _ (fun e => rfl)
  · exact IdOf_congr_ctxs w _ c (ctxs_SetLogValue w c' k v)
  · exact IdOf_updCtx w c c' _ (fun e => rfl)
  · exact IdOf_updCtx w c c' _ (fun e => rfl)
  · exact hsub

/-- C7 witness: id freshness and immutability on a concrete one-context
heap. -/
theorem idFreshAndImmutable_witness :
    IdOf w0 c0 ≠ "" ∧
    IdOf (SubContext w0 c0).1 (SubContext w0 c0).2 ≠ IdOf w0 c0 ∧
    IdOf (AddProp w0 c0 "k" (Val.vnat 1)) c0 = IdOf w0 c0 ∧
    IdOf (SetLoc w0 c0 (some 4)).1 c0 = IdOf w0 c0 ∧
    IdOf (SetLogValue w0 c0 "k" (Val.vnat 1)) c0 = IdOf w0 c0 ∧
    IdOf (grantPrivilege w0 c0 "R") c0 = IdOf w0 c0 ∧
    IdOf (revokePrivilege w0 c0) c0 = IdOf w0 c0 ∧
    IdOf (SubContext w0 c0).1 c0 = IdOf w0 c0 ∧
    IdOf (StartSpan w0 c0 "op").1 c0 = IdOf w0 c0 :=
  idFreshAndImmutable w0 c0 c0 d0 "k" (Val.vnat 1) (some 4) "R" "op"
    (by decide) (by decide) ⟨0, by decide, rfl⟩

/-- The child record that `SubContext` allocates when forking a parent
whose record is `d` in heap `w` (used only to state the lemmas below; the
operation itself is `SubContext`). -/
def subData (w : World) (d : CtxData) : CtxData :=
  { id := UUID w.uuidCounter
    verbosity := d.verbosity
    locSlot := Dyn.dloc (getLocData d)
    readKey := d.readKey
    writeKey := d.writeKey
    logAcc := d.logAcc
    logAccLevel := d.logAccLevel
    logHook := d.logHook
    pointHook := d.pointHook
    app := d.app
    tracer := d.tracer
    logger := d.logger
    goCtx := d.goCtx
    propsRef := w.nextRef
    logPropsRef := w.nextRef + 1
    privilege := d.privilege }

theorem SubContext_eq (w : World) (c : Nat) (d : CtxData)
    (hc : ctxOf w c = some d) :
    SubContext w c =
      ({ uuidCounter := w.uuidCounter + 1
         nextRef := w.nextRef + 3
         ctxs := aset w.ctxs (w.nextRef + 2) (subData w d)
         maps := aset (aset w.maps w.nextRef ((mapOf w d.propsRef).getD []))
           (w.nextRef + 1) ((mapOf w d.logPropsRef).getD []) },
       w.nextRef + 2) := by
  simp only [SubContext, hc]
  rfl

theorem SubContext_snd (w : World) (c : Nat) (d : CtxData)
    (hc : ctxOf w c = some d) : (SubContext w c).2 = w.nextRef + 2 := by
  rw [SubContext_eq w c d hc]

theorem ctxOf_SubContext_child (w : World) (c : Nat) (d : CtxData)
    (hc : ctxOf w c = some d) :
    ctxOf (SubContext w c).1 (SubContext w c).2 = some (subData w d) := by
  rw [SubContext_eq w c d hc]
  simp only [ctxOf]
  exact alookup_aset_self _ _ _

theorem mapOf_SubContext_childProps (w : World) (c : Nat) (d : CtxData)
    (hc : ctxOf w c = some d) :
    mapOf (SubContext w c).1 w.nextRef = some ((mapOf w d.propsRef).getD []) := by
  rw [SubContext_eq w c d hc]
  simp only [mapOf]
  rw [alookup_aset_ne _ _ _ _ (by omega)]
  exact alookup_aset_self _ _ _

theorem mapOf_SubContext_old (w : World) (c m : Nat) (hm : m < w.nextRef) :
    mapOf (SubContext w c).1 m = mapOf w m := by
  unfold SubContext
  cases hc : ctxOf w c with
  | none => rfl
  | some d =>
    simp only [mapOf]
    rw [alookup_aset_ne _ _ _ _ (by omega), alookup_aset_ne _ _ _ _ (by omega)]

theorem ctxOf_congr_ctxs (w w' : World) (c : Nat) (h : w'.ctxs = w.ctxs) :
    ctxOf w' c = ctxOf w c := by
  simp [ctxOf, h]

theorem PropOf_eq (w : World) (c : Nat) (d : CtxData) (pm : PropMap)
    (k : String) (hc : ctxOf w c = some d)
    (hm : mapOf w d.propsRef = some pm) :
    PropOf w c k = mapFind pm k := by
  simp [PropOf, hc, hm]

theorem AddProp_eq (w : World) (c : Nat) (d : CtxData) (pm : PropMap)
    (k : String) (v : Val) (hc : ctxOf w c = some d)
    (hm : mapOf w d.propsRef = some pm) :
    AddProp w c k v
      = { w with maps := aset w.maps d.propsRef (mapInsert pm k v) } := by
  simp only [AddProp, hc, updMap, hm]

/-- C1: fork isolation.  After `AddProp c k v`, a child forked by
`SubContext` reads `v` at `k`; the child overwriting `k` with `v2 ≠ v`
changes its own map (it then reads `v2`) while the parent still reads
`v`; and a parent-side `AddProp` performed after the fork is invisible to
the already-forked child at every key. -/
theorem forkIsolation (w : World) (c : Nat) (d : CtxData) (pm : PropMap)
    (k k2 k' : String) (v v2 v3 : Val)
    (hc : ctxOf w c = some d) (hlt : c < w.nextRef)
    (hp : d.propsRef < w.nextRef) (hm : mapOf w d.propsRef = some pm)
    (_hv : v2 ≠ v) :
    PropOf (SubContext (AddProp w c k v) c).1
      (SubContext (AddProp w c k v) c).2 k = some v ∧
    PropOf (AddProp (SubContext (AddProp w c k v) c).1
      (SubContext (AddProp w c k v) c).2 k v2)
      (SubContext (AddProp w c k v) c).2 k = some v2 ∧
    PropOf (AddProp (SubContext (AddProp w c k v) c).1
      (SubContext (AddProp w c k v) c).2 k v2) c k = some v ∧
    PropOf (AddProp (SubContext (AddProp w c k v) c).1 c k2 v3)
      (SubContext (AddProp w c k v) c).2 k' =
      PropOf (SubContext (AddProp w c k v) c).1
        (SubContext (AddProp w c k v) c).2 k' := by
  have e1 : AddProp w c k v
      = { w with maps := aset w.maps d.propsRef (mapInsert pm k v) } :=
    AddProp_eq w c d pm k v hc hm
  have hc1 : ctxOf (AddProp w c k v) c = some d := by
    rw [e1]
    exact hc
  have hm1 : mapOf (AddProp w c k v) d.propsRef = some (mapInsert pm k v) := by
    rw [e1]
    simp only [mapOf]
    exact alookup_aset_self _ _ _
  have hnx : (AddProp w c k v).nextRef = w.nextRef := by rw [e1]
  have hsnd := SubContext_snd (AddProp w c k v) c d hc1
  have hcc := ctxOf_SubContext_child (AddProp w c k v) c d hc1
  have hcm : mapOf (SubContext (AddProp w c k v) c).1
      (subData (AddProp w c k v) d).propsRef = some (mapInsert pm k v) := by
    have h := mapOf_SubContext_childProps (AddProp w c k v) c d hc1
    rw [hm1] at h
    exact h
  have hc2 : ctxOf (SubContext (AddProp w c k v) c).1 c = some d := by
    rw [ctxOf_SubContext_old (AddProp w c k v) c c (by omega)]
    exact hc1
  have hm2 : mapOf (SubContext (AddProp w c k v) c).1 d.propsRef
      = some (mapInsert pm k v) := by
    rw [mapOf_SubContext_old (AddProp w c k v) c d.propsRef (by omega)]
    exact hm1
  have hnec : (subData (AddProp w c k v) d).propsRef ≠ d.propsRef := by
    show (AddProp w c k v).nextRef ≠ d.propsRef
    omega
  have e3 : AddProp (SubContext (AddProp w c k v) c).1
      (SubContext (AddProp w c k v) c).2 k v2
      = { (SubContext (AddProp w c k v) c).1 with
          maps := aset (SubContext (AddProp w c k v) c).1.maps
            (subData (AddProp w c k v) d).propsRef
            (mapInsert (mapInsert pm k v) k v2) } :=
    AddProp_eq _ _ _ _ k v2 hcc hcm
  have e4 : AddProp (SubContext (AddProp w c k v) c).1 c k2 v3
      = { (SubContext (AddProp w c k v) c).1 with
          maps := aset (SubContext (AddProp w c k v) c).1.maps
            d.propsRef (mapInsert (mapInsert pm k v) k2 v3) } :=
    AddProp_eq _ _ _ _ k2 v3 hc2 hm2
  refine ⟨?_, ?_, ?_, ?_⟩
  · rw [PropOf_eq _ _ _ _ k hcc hcm]
    exact mapFind_mapInsert_self _ _ _
  · have hcc3 : ctxOf (AddProp (SubContext (AddProp w c k v) c).1
        (SubContext (AddProp w c k v) c).2 k v2)
        (SubContext (AddProp w c k v) c).2 = some (subData (AddProp w c k v) d) := by
      rw [e3]
      exact hcc
    have hcm3 : mapOf (AddProp (SubContext (AddProp w c k v) c).1
        (SubContext (AddProp w c k v) c).2 k v2)
        (subData (AddProp w c k v) d).propsRef
        = some (mapInsert (mapInsert pm k v) k v2) := by
      rw [e3]
      simp only [mapOf]
      exact alookup_aset_self _ _ _
    rw [PropOf_eq _ _ _ _ k hcc3 hcm3]
    exact mapFind_mapInsert_self _ _ _
  · have hcp3 : ctxOf (AddProp (SubContext (AddProp w c k v) c).1
        (SubContext (AddProp w c k v) c).2 k v2) c = some d := by
      rw [e3]
      exact hc2
    have hmp3 : mapOf (AddProp (SubContext (AddProp w c k v) c).1
        (SubContext (AddProp w c k v) c).2 k v2) d.propsRef
        = some (mapInsert pm k v) := by
      rw [e3]
      simp only [mapOf]
      rw [alookup_aset_ne _ _ _ _ hnec]
      exact hm2
    rw [PropOf_eq _ _ _ _ k hcp3 hmp3]
    exact mapFind_mapInsert_self _ _ _
  · have hcc4 : ctxOf (AddProp (SubContext (AddProp w c k v) c).1 c k2 v3)
        (SubContext (AddProp w c k v) c).2 = some (subData (AddProp w c k v) d) := by
      rw [e4]
      exact hcc
    have hcm4 : mapOf (AddProp (SubContext (AddProp w c k v) c).1 c k2 v3)
        (subData (AddProp w c k v) d).propsRef = some (mapInsert pm k v) := by
      rw [e4]
      simp only [mapOf]
      rw [alookup_aset_ne _ _ _ _ (Ne.symm hnec)]
      exact hcm
    rw [PropOf_eq _ _ _ _ k' hcc4 hcm4, PropOf_eq _ _ _ _ k' hcc hcm]

/-- C1 witness: fork isolation on a concrete one-context heap, with
`k = "k"`, `v = 1`, `v2 = 2`, a parent-side write of `3` at `"k2"`, and
the invisibility conjunct instantiated at the written key `"k"`. -/
theorem forkIsolation_witness :
    PropOf (SubContext (AddProp w0 c0 "k" (Val.vnat 1)) c0).1
      (SubContext (AddProp w0 c0 "k" (Val.vnat 1)) c0).2 "k" = some (Val.vnat 1) ∧
    PropOf (AddProp (SubContext (AddProp w0 c0 "k" (Val.vnat 1)) c0).1
      (SubContext (AddProp w0 c0 "k" (Val.vnat 1)) c0).2 "k" (Val.vnat 2))
      (SubContext (AddProp w0 c0 "k" (Val.vnat 1)) c0).2 "k" = some (Val.vnat 2) ∧
    PropOf (AddProp (SubContext (AddProp w0 c0 "k" (Val.vnat 1)) c0).1
      (SubContext (AddProp w0 c0 "k" (Val.vnat 1)) c0).2 "k" (Val.vnat 2)) c0 "k"
      = some (Val.vnat 1) ∧
    PropOf (AddProp (SubContext (AddProp w0 c0 "k" (Val.vnat 1)) c0).1 c0 "k2" (Val.vnat 3))
      (SubContext (AddProp w0 c0 "k" (Val.vnat 1)) c0).2 "k" =
      PropOf (SubContext (AddProp w0 c0 "k" (Val.vnat 1)) c0).1
        (SubContext (AddProp w0 c0 "k" (Val.vnat 1)) c0).2 "k" :=
  forkIsolation w0 c0 d0 [] "k" "k2" "k" (Val.vnat 1) (Val.vnat 2) (Val.vnat 3)
    (by decide) (by decide) (by decide) (by decide) (by decide)

/-- C8: the privilege value is copied by value at fork time: the child
agrees with the parent on `isPrivileged` for every region at the fork
instant; a parent-side `grantPrivilege`/`revokePrivilege` performed after
the fork leaves the child's entire record (and the whole map heap)
unchanged; and symmetrically a child-side grant or revoke leaves the
parent's record unchanged. -/
theorem privilegeCopiedByValue (w : World) (c : Nat) (d : CtxData)
    (reg r1 : String) (hc : ctxOf w c = some d) (hlt : c < w.nextRef) :
    (∀ r, isPrivileged (SubContext w c).1 (SubContext w c).2 r
      = isPrivileged w c r) ∧
    ctxOf (grantPrivilege (SubContext w c).1 c reg) (SubContext w c).2
      = ctxOf (SubContext w c).1 (SubContext w c).2 ∧
    ctxOf (revokePrivilege (SubContext w c).1 c) (SubContext w c).2
      = ctxOf (SubContext w c).1 (SubContext w c).2 ∧
    (grantPrivilege (SubContext w c).1 c reg).maps = (SubContext w c).1.maps ∧
    (revokePrivilege (SubContext w c).1 c).maps = (SubContext w c).1.maps ∧
    ctxOf (grantPrivilege (SubContext w c).1 (SubContext w c).2 r1) c
      = ctxOf (SubContext w c).1 c ∧
    ctxOf (revokePrivilege (SubContext w c).1 (SubContext w c).2) c
      = ctxOf (SubContext w c).1 c := by
  have hsnd := SubContext_snd w c d hc
  have hcc := ctxOf_SubContext_child w c d hc
  have hne : c ≠ (SubContext w c).2 := by
    rw [hsnd]
    omega
  refine ⟨?_, ctxOf_updCtx_ne _ _ _ _ hne, ctxOf_updCtx_ne _ _ _ _ hne,
    maps_updCtx _ _ _, maps_updCtx _ _ _,
    ctxOf_updCtx_ne _ _ _ _ (Ne.symm hne), ctxOf_updCtx_ne _ _ _ _ (Ne.symm hne)⟩
  intro r
  rw [isPrivileged_eq _ _ _ hcc r, isPrivileged_eq _ _ _ hc r]
  rfl

/-- C8 witness: privilege copy-by-value at a concrete fork, with the
region-agreement conjunct instantiated at region `"R"`. -/
theorem privilegeCopiedByValue_witness :
    isPrivileged (SubContext w0 c0).1 (SubContext w0 c0).2 "R"
      = isPrivileged w0 c0 "R" ∧
    ctxOf (grantPrivilege (SubContext w0 c0).1 c0 "R") (SubContext w0 c0).2
      = ctxOf (SubContext w0 c0).1 (SubContext w0 c0).2 ∧
    ctxOf (revokePrivilege (SubContext w0 c0).1 c0) (SubContext w0 c0).2
      = ctxOf (SubContext w0 c0).1 (SubContext w0 c0).2 ∧
    (grantPrivilege (SubContext w0 c0).1 c0 "R").maps = (SubContext w0 c0).1.maps ∧
    (revokePrivilege (SubContext w0 c0).1 c0).maps = (SubContext w0 c0).1.maps ∧
    ctxOf (grantPrivilege (SubContext w0 c0).1 (SubContext w0 c0).2 "R2") c0
      = ctxOf (SubContext w0 c0).1 c0 ∧
    ctxOf (revokePrivilege (SubContext w0 c0).1 (SubContext w0 c0).2) c0
      = ctxOf (SubContext w0 c0).1 c0 := by
  have h := privilegeCopiedByValue w0 c0 d0 "R" "R2" (by decide) (by decide)
  exact ⟨h.1 "R", h.2.1, h.2.2.1, h.2.2.2.1, h.2.2.2.2.1, h.2.2.2.2.2.1, h.2.2.2.2.2.2⟩

/-- C6: `StartSpan` forks the context (its returned heap and child ref are
exactly those of `SubContext`, so the tracer's in-place mutation happens
at that same ref and the child is what is returned); the child's id
differs from the parent's and the child inherits the parent's
collaborators and property snapshot; with a tracer attached the start
hook is invoked exactly once, with exactly the child ref and the
operation name, and `StopSpan` on the child invokes the stop hook exactly
once with the child; with a nil tracer neither operation invokes a
hook. -/
theorem spanWrapper (w : World) (c : Nat) (d : CtxData) (op : String)
    (hc : ctxOf w c = some d)
    (hid : ∃ j, j < w.uuidCounter ∧ d.id = UUID j) :
    (StartSpan w c op).1 = (SubContext w c).1 ∧
    (StartSpan w c op).2.1 = (SubContext w c).2 ∧
    IdOf (StartSpan w c op).1 (StartSpan w c op).2.1 ≠ IdOf w c ∧
    (∃ e, ctxOf (StartSpan w c op).1 (StartSpan w c op).2.1 = some e ∧
      e.tracer = d.tracer ∧ e.logger = d.logger ∧ e.app = d.app ∧
      e.logAcc = d.logAcc ∧ e.logHook = d.logHook ∧ e.pointHook = d.pointHook ∧
      e.verbosity = d.verbosity ∧ e.privilege = d.privilege) ∧
    (∀ k, PropOf (StartSpan w c op).1 (StartSpan w c op).2.1 k = PropOf w c k) ∧
    (d.tracer = none → (StartSpan w c op).2.2 = [] ∧
      StopSpan (StartSpan w c op).1 (StartSpan w c op).2.1 = []) ∧
    (∀ tr, d.tracer = some tr →
      (StartSpan w c op).2.2 = [Event.startSpan tr ((StartSpan w c op).2.1) op] ∧
      StopSpan (StartSpan w c op).1 (StartSpan w c op).2.1
        = [Event.stopSpan tr ((StartSpan w c op).2.1)]) := by
  obtain ⟨j, hj, hjid⟩ := hid
  have hcc := ctxOf_SubContext_child w c d hc
  have hid2 : IdOf (SubContext w c).1 (SubContext w c).2 ≠ IdOf w c := by
    rw [SubContext_child_id w c d hc, IdOf_eq _ _ _ hc, hjid]
    intro h
    exact absurd (UUID_inj h) (by omega)
  have hprops : ∀ k, PropOf (SubContext w c).1 (SubContext w c).2 k
      = PropOf w c k := by
    intro k
    have hcm := mapOf_SubContext_childProps w c d hc
    cases hm : mapOf w d.propsRef with
    | some pm =>
      rw [hm] at hcm
      simp only [Option.getD_some] at hcm
      rw [PropOf_eq _ _ _ _ k hcc hcm, PropOf_eq _ _ _ _ k hc hm]
    | none =>
      rw [hm] at hcm
      simp only [Option.getD_none] at hcm
      rw [PropOf_eq _ _ _ _ k hcc hcm]
      simp [PropOf, hc, hm, mapFind]
  refine ⟨rfl, rfl, hid2,
    ⟨subData w d, hcc, rfl, rfl, rfl, rfl, rfl, rfl, rfl, rfl⟩, hprops, ?_, ?_⟩
  · intro htr
    constructor
    · simp [StartSpan, hcc, subData, htr]
    · simp [StartSpan, StopSpan, hcc, subData, htr]
  · intro tr htr
    constructor
    · simp [StartSpan, hcc, subData, htr]
    · simp [StartSpan, StopSpan, hcc, subData, htr]

/-- C6 witness: the span wrapper on a concrete context carrying a tracer
(ref 7), with the snapshot conjunct instantiated at key `"k"`. -/
theorem spanWrapper_witness :
    (StartSpan wtr 2 "op").1 = (SubContext wtr 2).1 ∧
    (StartSpan wtr 2 "op").2.1 = (SubContext wtr 2).2 ∧
    IdOf (StartSpan wtr 2 "op").1 (StartSpan wtr 2 "op").2.1 ≠ IdOf wtr 2 ∧
    PropOf (StartSpan wtr 2 "op").1 (StartSpan wtr 2 "op").2.1 "k"
      = PropOf wtr 2 "k" ∧
    (StartSpan wtr 2 "op").2.2
      = [Event.startSpan 7 ((StartSpan wtr 2 "op").2.1) "op"] ∧
    StopSpan (StartSpan wtr 2 "op").1 (StartSpan wtr 2 "op").2.1
      = [Event.stopSpan 7 ((StartSpan wtr 2 "op").2.1)] := by
  have h := spanWrapper wtr 2 dtr "op" (by decide) ⟨0, by decide, rfl⟩
  exact ⟨h.1, h.2.1, h.2.2.1, h.2.2.2.2.1 "k",
    (h.2.2.2.2.2.2 7 rfl).1, (h.2.2.2.2.2.2 7 rfl).2⟩

end Rulio
